import Mathlib

/-!
Shallow embedding of the AgentLego tool-server layer
(src/agentlego/server/server.py) and proofs about it.

The embedding models:
  * the data model of tool parameter specs (ParameterSpec / ToolDescriptor),
  * schema synthesis (create_input_params, create_output_model),
  * endpoint binding (add_tool's route registration),
  * the per-request handler (_call and its try/except wrapper call),
  * the media codecs the handler composes: base64 (Python base64.b64encode /
    b64decode), a lossless PNG-style image serialization (PIL save/open with
    format png) and a WAV-style audio serialization (torchaudio.save/load),
    which are third-party collaborators modelled from the specification.
-/

namespace AgentLego

/-! ### Python-level value and type model -/

/-- The semantic types a ParameterSpec can declare: the two media classes
ImageIO and AudioIO from agentlego.types, plus the primitive Python types
used by tool signatures. Python identity tests (p.type is ImageIO) become
equality on this enumeration. -/
inductive PyType where
  | image
  | audio
  | str
  | int
  | bool
  deriving DecidableEq, Repr

/-- Whether a PyType is one of the two media classes. -/
def PyType.isMedia : PyType → Bool
  | .image => true
  | .audio => true
  | _ => false

/-- An in-memory image: width, height and a row-major list of pixel bytes,
standing for the PIL image object wrapped by ImageIO. -/
structure ImgData where
  width : Nat
  height : Nat
  pixels : List Nat
  deriving DecidableEq, Repr

/-- Well-formedness of an in-memory image: pixel buffer matches the declared
dimensions, every pixel is a byte, and dimensions fit the 4-byte header of
the serialized form. -/
def ImgData.wf (img : ImgData) : Prop :=
  img.pixels.length = img.width * img.height ∧
  (∀ b ∈ img.pixels, b < 256) ∧
  img.width < 2 ^ 32 ∧ img.height < 2 ^ 32

/-- An in-memory audio clip: raw samples plus a sampling rate, standing for
the (tensor, sampling_rate) pair wrapped by AudioIO. -/
structure AudData where
  samples : List Int
  sampling_rate : Nat
  deriving DecidableEq, Repr

/-- Well-formedness of an audio clip: 16-bit signed samples and a sampling
rate fitting the 4-byte header of the serialized form. -/
def AudData.wf (a : AudData) : Prop :=
  (∀ s ∈ a.samples, -32768 ≤ s ∧ s < 32768) ∧ a.sampling_rate < 2 ^ 32

/-- A transport-level value as delivered by the web framework to the handler
keyword arguments: null, a primitive, or an uploaded file carrying a
filename and raw bytes. -/
inductive TValue where
  | null
  | str (s : String)
  | int (n : Int)
  | bool (b : Bool)
  | file (filename : String) (content : List Nat)
  deriving DecidableEq, Repr

/-- An in-memory value as passed to or returned by a tool: Python None, a
primitive, or one of the two media objects. -/
inductive IValue where
  | pynone
  | str (s : String)
  | int (n : Int)
  | bool (b : Bool)
  | image (img : ImgData)
  | audio (a : AudData)
  deriving DecidableEq, Repr

/-- A Python exception, reduced to the class-plus-message text that repr(e)
would show. -/
structure Exn where
  msg : String
  deriving DecidableEq, Repr

/-- Textual representation of an exception, as Python repr(e) used at
server.py line 139. -/
def reprExn (e : Exn) : String := e.msg

/-! ### Base64 (model of Python base64.b64encode / the inverse decode) -/

/-- The standard base64 alphabet in index order. -/
def b64Alphabet : List Char :=
  ['A','B','C','D','E','F','G','H','I','J','K','L','M','N','O','P',
   'Q','R','S','T','U','V','W','X','Y','Z',
   'a','b','c','d','e','f','g','h','i','j','k','l','m','n','o','p',
   'q','r','s','t','u','v','w','x','y','z',
   '0','1','2','3','4','5','6','7','8','9','+','/']

/-- Encode one sextet as its base64 alphabet character. -/
def encB64 (n : Nat) : Char := b64Alphabet.getD n '*'

/-- Decode one base64 alphabet character back to its sextet. -/
def decB64 (c : Char) : Option Nat := b64Alphabet.findIdx? (fun x => x = c)

/-- Base64-encode a byte list, three bytes to four characters, padding the
final partial group with the = character. Modelled from the spec: Python
base64.b64encode as used at server.py lines 119 and 125. -/
def b64EncodeBytes : List Nat → List Char
  | [] => []
  | [a] => [encB64 (a / 4), encB64 (a % 4 * 16), '=', '=']
  | [a, b] => [encB64 (a / 4), encB64 (a % 4 * 16 + b / 16),
               encB64 (b % 16 * 4), '=']
  | a :: b :: c :: rest =>
      encB64 (a / 4) :: encB64 (a % 4 * 16 + b / 16) ::
      encB64 (b % 16 * 4 + c / 64) :: encB64 (c % 64) :: b64EncodeBytes rest

/-- Base64-decode a character list back to bytes. Modelled from the spec:
the inverse transport decoding a client applies to a base64 response
field. -/
def b64DecodeChars : List Char → Option (List Nat)
  | [] => some []
  | c1 :: c2 :: c3 :: c4 :: rest =>
      match decB64 c1, decB64 c2 with
      | some s1, some s2 =>
          if c3 = '=' then
            if c4 = '=' ∧ rest = [] then some [s1 * 4 + s2 / 16] else none
          else
            match decB64 c3 with
            | some s3 =>
                if c4 = '=' then
                  if rest = [] then
                    some [s1 * 4 + s2 / 16, s2 % 16 * 16 + s3 / 4]
                  else none
                else
                  match decB64 c4, b64DecodeChars rest with
                  | some s4, some bs =>
                      some ((s1 * 4 + s2 / 16) :: (s2 % 16 * 16 + s3 / 4) ::
                            (s3 % 4 * 64 + s4) :: bs)
                  | _, _ => none
            | none => none
      | _, _ => none
  | _ => none

/-- String form of base64 encoding, as b64encode(...).decode() produces. -/
def b64encode (bs : List Nat) : String := String.mk (b64EncodeBytes bs)

/-- String form of base64 decoding. -/
def b64decode (s : String) : Option (List Nat) := b64DecodeChars s.data

/-! ### Lossless image serialization
(model of PIL save(format=png) / Image.open) -/

/-- Serialize a natural number below 2^32 as four little-endian bytes. -/
def toBytes4 (n : Nat) : List Nat :=
  [n % 256, n / 256 % 256, n / 65536 % 256, n / 16777216 % 256]

/-- Read back a four-byte little-endian natural number. -/
def fromBytes4 (b0 b1 b2 b3 : Nat) : Nat :=
  b0 + b1 * 256 + b2 * 65536 + b3 * 16777216

/-- Serialize an image to bytes: a width/height header followed by the pixel
bytes. Modelled from the spec: the lossless PNG serialization performed by
out.to_pil().save(file, format=png) at server.py line 118. -/
def pngEncode (img : ImgData) : List Nat :=
  toBytes4 img.width ++ toBytes4 img.height ++ img.pixels

/-- Parse serialized image bytes back into an image, validating the header
against the payload. Modelled from the spec: the PIL Image.open decoding at
server.py line 98. -/
def pngDecode (bs : List Nat) : Option ImgData :=
  match bs with
  | w0 :: w1 :: w2 :: w3 :: h0 :: h1 :: h2 :: h3 :: pix =>
      let w := fromBytes4 w0 w1 w2 w3
      let h := fromBytes4 h0 h1 h2 h3
      if pix.length = w * h ∧ pix.all (fun b => b < 256) then
        some ⟨w, h, pix⟩
      else none
  | _ => none

/-! ### Audio serialization (model of torchaudio.save / torchaudio.load) -/

/-- Store one signed 16-bit sample as two little-endian bytes, reducing
modulo 2^16. -/
def sampleToBytes (s : Int) : List Nat :=
  [(s % 65536).toNat % 256, (s % 65536).toNat / 256]

/-- Read two bytes back as a signed 16-bit sample. -/
def sampleFromBytes (b0 b1 : Nat) : Int :=
  let n := b0 + b1 * 256
  if n < 32768 then (n : Int) else (n : Int) - 65536

/-- Serialize the sample list as consecutive two-byte samples. -/
def samplesEncode (ss : List Int) : List Nat :=
  ss.flatMap sampleToBytes

/-- Parse consecutive two-byte samples; an odd trailing byte is malformed. -/
def samplesDecode : List Nat → Option (List Int)
  | [] => some []
  | b0 :: b1 :: rest =>
      match samplesDecode rest with
      | some ss => some (sampleFromBytes b0 b1 :: ss)
      | none => none
  | _ => none

/-- Serialize an audio clip to bytes: a sampling-rate header followed by the
16-bit samples. Modelled from the spec: the WAV container written by
torchaudio.save(file, tensor, sampling_rate, format=wav) at server.py
lines 123 and 124. -/
def wavEncode (a : AudData) : List Nat :=
  toBytes4 (a.sampling_rate % 2 ^ 32) ++ samplesEncode a.samples

/-- Parse serialized audio bytes back into samples plus a sampling rate.
Modelled from the spec: the torchaudio.load decoding at server.py
line 102. -/
def wavDecode (bs : List Nat) : Option AudData :=
  match bs with
  | r0 :: r1 :: r2 :: r3 :: rest =>
      match samplesDecode rest with
      | some ss => some ⟨ss, fromBytes4 r0 r1 r2 r3⟩
      | none => none
  | _ => none

/-! ### Data model of tool metadata (ParameterSpec / ToolDescriptor) -/

/-- A declared tool parameter: name, semantic type, optional flag, declared
default and description, mirroring agentlego Parameter metadata as consumed
by server.py (p.name, p.type, p.optional, p.default, p.description). The
description is the Python Optional string attribute. -/
structure ParameterSpec where
  name : String
  type : PyType
  optional : Bool
  default : TValue
  description : Option String
  deriving DecidableEq, Repr

/-- The result of invoking a tool: Python returns either a tuple or any
single value (server.py line 111 tests isinstance(outs, tuple)). -/
inductive ToolResult where
  | single (v : IValue)
  | tup (vs : List IValue)
  deriving DecidableEq, Repr

/-- A registered tool as seen by the server layer: its declared name and
description (toolmeta), its ordered input and output specs, and its
behaviour as a function from the decoded keyword arguments to a result or
an exception. -/
structure Tool where
  name : String
  description : String
  inputs : List ParameterSpec
  outputs : List ParameterSpec
  run : List (String × IValue) → Except Exn ToolResult

/-! ### Schema synthesis (create_input_params / create_output_model) -/

/-- The synthesized request-field annotation of one input parameter: a
binary-upload field with a format hint (fastapi UploadFile plus File), or a
form field of a primitive type (fastapi Form). Either carries the optional
description documentation. -/
inductive FieldAnn where
  | uploadFile (format : String) (description : Option String)
  | form (t : PyType) (description : Option String)
  deriving DecidableEq, Repr

/-- A synthesized request parameter: its name, annotation, and default
(none stands for inspect._empty, a required field). -/
structure InputParam where
  name : String
  ann : FieldAnn
  default : Option TValue
  deriving DecidableEq, Repr

/-- Python truthiness of the description attribute, as tested by the
statement if p.description at server.py line 39: false for None and for
the empty string. -/
def descTruthy : Option String → Option String
  | some d => if d = "" then none else some d
  | none => none

/-- Embedding of create_input_params (server.py lines 35 to 58): one
synthesized request parameter per input spec, in declaration order. -/
def create_input_params (tool : Tool) : List InputParam :=
  tool.inputs.map fun p =>
    let desc := descTruthy p.description
    let ann :=
      if p.type = PyType.image then FieldAnn.uploadFile "image;binary" desc
      else if p.type = PyType.audio then
        FieldAnn.uploadFile "audio;binary" desc
      else FieldAnn.form p.type desc
    { name := p.name
      ann := ann
      default := if p.optional then some p.default else none }

/-- One synthesized response field: its (possibly degraded) type and its
documented encoding format. -/
structure OutAnn where
  type : PyType
  format : Option String
  deriving DecidableEq, Repr

/-- The synthesized response type descriptor: Python None (no response
schema), a single bare annotated type, or a Tuple of annotated types. -/
inductive OutputModel where
  | noSchema
  | single (a : OutAnn)
  | tup (l : List OutAnn)
  deriving DecidableEq, Repr

/-- The response annotation of one output spec (server.py lines 64 to 75):
media types degrade to a base64 string with a format tag, primitives pass
through unchanged. -/
def outputAnn (p : ParameterSpec) : OutAnn :=
  if p.type = PyType.image then ⟨PyType.str, some "image/png;base64"⟩
  else if p.type = PyType.audio then ⟨PyType.str, some "audio/wav;base64"⟩
  else ⟨p.type, none⟩

/-- Embedding of create_output_model (server.py lines 61 to 82). -/
def create_output_model (tool : Tool) : OutputModel :=
  let schema := tool.outputs.map outputAnn
  match schema with
  | [] => OutputModel.noSchema
  | [a] => OutputModel.single a
  | l => OutputModel.tup l

/-! ### Endpoint binding (add_tool route registration) -/

/-- A registered route, holding the metadata add_tool passes to
router.add_api_route (server.py lines 141 to 147). -/
structure Route where
  path : String
  method : String
  operationId : String
  summary : String
  deriving DecidableEq, Repr

/-- Embedding of tool.name.replace applied to one space character
(server.py line 86): every space becomes an underscore. -/
def normalizeName (s : String) : String :=
  String.mk (s.data.map (fun c => if c = ' ' then '_' else c))

/-- The routes add_tool registers for one tool: exactly one POST route at
slash plus the normalized name, with the normalized name as operation id
and the tool description as summary. -/
def add_tool_routes (tool : Tool) : List Route :=
  [{ path := "/" ++ normalizeName tool.name
     method := "POST"
     operationId := normalizeName tool.name
     summary := tool.description }]

/-! ### Request handling (the _call closure and its call wrapper) -/

/-- The component after the last dot of a Python string, that is the last
element of s.rpartition of the dot separator: the suffix after the last
dot, or the whole string when it holds no dot. -/
def rpartTail (s : String) (sep : Char) : List Char :=
  (s.data.reverse.takeWhile (fun c => c ≠ sep)).reverse

/-- Embedding of the format inference at server.py line 101:
data.filename.rpartition of a dot, last component, with the Python
expression or None mapping an empty extension to None. -/
def fileFormat (filename : String) : Option String :=
  let ext := String.mk (rpartTail filename '.')
  if ext = "" then none else some ext

/-- Model of torchaudio.load with an explicit format argument. Modelled
from the spec: torchaudio decodes the WAV container when told the wav
format or when left to auto-detect (format None); any other explicit
format fails on these bytes. -/
def torchaudioLoad (content : List Nat) (format : Option String) :
    Except Exn AudData :=
  match format with
  | none =>
      match wavDecode content with
      | some a => Except.ok a
      | none => Except.error ⟨"RuntimeError: failed to decode audio"⟩
  | some f =>
      if f = "wav" then
        match wavDecode content with
        | some a => Except.ok a
        | none => Except.error ⟨"RuntimeError: failed to decode audio"⟩
      else Except.error ⟨"RuntimeError: unsupported audio format"⟩

/-- Decoding of one argument by the loop of _call (server.py lines 94 to
108): media branches first, then the null skip, then primitive coercion.
The result is none when the loop continues without adding the argument. -/
def decodeArg (p : ParameterSpec) (v : TValue) :
    Except Exn (Option IValue) :=
  match p.type with
  | PyType.image =>
      match v with
      | TValue.file _ content =>
          match pngDecode content with
          | some img => Except.ok (some (IValue.image img))
          | none => Except.error ⟨"UnidentifiedImageError"⟩
      | _ => Except.error ⟨"AttributeError: file attribute on non-upload"⟩
  | PyType.audio =>
      match v with
      | TValue.file filename content =>
          match torchaudioLoad content (fileFormat filename) with
          | Except.ok a => Except.ok (some (IValue.audio a))
          | Except.error e => Except.error e
      | _ => Except.error ⟨"AttributeError: filename on non-upload"⟩
  | t =>
      match v with
      | TValue.null => Except.ok none
      | TValue.str s =>
          match t with
          | PyType.str => Except.ok (some (IValue.str s))
          | PyType.int =>
              match s.toInt? with
              | some n => Except.ok (some (IValue.int n))
              | none => Except.error ⟨"ValueError: invalid literal for int"⟩
          | PyType.bool => Except.ok (some (IValue.bool (s ≠ "")))
          | _ => Except.error ⟨"TypeError"⟩
      | TValue.int n =>
          match t with
          | PyType.str => Except.ok (some (IValue.str (toString n)))
          | PyType.int => Except.ok (some (IValue.int n))
          | PyType.bool => Except.ok (some (IValue.bool (n ≠ 0)))
          | _ => Except.error ⟨"TypeError"⟩
      | TValue.bool b =>
          match t with
          | PyType.str =>
              Except.ok (some (IValue.str (if b then "True" else "False")))
          | PyType.int => Except.ok (some (IValue.int (if b then 1 else 0)))
          | PyType.bool => Except.ok (some (IValue.bool b))
          | _ => Except.error ⟨"TypeError"⟩
      | TValue.file _ _ => Except.error ⟨"TypeError: cannot coerce upload"⟩

/-- The argument-decoding loop of _call over all declared inputs, building
the args mapping in declaration order and skipping entries the loop
continues past. -/
def decodeArgs (inputs : List ParameterSpec) (kwargs : String → TValue) :
    Except Exn (List (String × IValue)) :=
  match inputs with
  | [] => Except.ok []
  | p :: rest =>
      match decodeArg p (kwargs p.name) with
      | Except.error e => Except.error e
      | Except.ok r =>
          match decodeArgs rest kwargs with
          | Except.error e => Except.error e
          | Except.ok rs =>
              Except.ok (match r with
                | some v => (p.name, v) :: rs
                | none => rs)

/-- Normalization at server.py lines 111 and 112: a non-tuple result is
wrapped into a one-element list. -/
def normalizeOuts : ToolResult → List IValue
  | ToolResult.single v => [v]
  | ToolResult.tup vs => vs

/-- Encoding of one returned value against one output spec (server.py
lines 116 to 126): an image is PNG-serialized and base64-encoded, an audio
clip is WAV-serialized and base64-encoded, anything else is appended
unchanged. A media-typed spec with a non-media value fails as the
attribute access on the returned object would. -/
def encodeOut (out : IValue) (p : ParameterSpec) : Except Exn IValue :=
  match p.type with
  | PyType.image =>
      match out with
      | IValue.image img =>
          Except.ok (IValue.str (b64encode (pngEncode img)))
      | _ => Except.error ⟨"AttributeError: to_pil on non-image"⟩
  | PyType.audio =>
      match out with
      | IValue.audio a => Except.ok (IValue.str (b64encode (wavEncode a)))
      | _ => Except.error ⟨"AttributeError: to_tensor on non-audio"⟩
  | _ => Except.ok out

/-- The encoding loop of _call (server.py lines 114 to 126): zip of the
returned values with the declared output specs, encoded positionally. -/
def encodeOuts (outs : List IValue) (specs : List ParameterSpec) :
    Except Exn (List IValue) :=
  match outs, specs with
  | out :: outs, p :: specs =>
      match encodeOut out p with
      | Except.error e => Except.error e
      | Except.ok v =>
          match encodeOuts outs specs with
          | Except.error e => Except.error e
          | Except.ok vs => Except.ok (v :: vs)
  | _, _ => Except.ok []

/-- The response value of a successful invocation: Python None, a bare
value, or a tuple. -/
inductive Response where
  | null
  | single (v : IValue)
  | tup (vs : List IValue)
  deriving DecidableEq, Repr

/-- The arity wrap at server.py lines 128 to 133. -/
def mkResponse : List IValue → Response
  | [] => Response.null
  | [v] => Response.single v
  | vs => Response.tup vs

/-- Embedding of the _call closure (server.py lines 92 to 133): decode the
keyword arguments, invoke the tool, encode the outputs, wrap by arity. -/
def toolCall (tool : Tool) (kwargs : String → TValue) :
    Except Exn Response :=
  match decodeArgs tool.inputs kwargs with
  | Except.error e => Except.error e
  | Except.ok args =>
      match tool.run args with
      | Except.error e => Except.error e
      | Except.ok r =>
          match encodeOuts (normalizeOuts r) tool.outputs with
          | Except.error e => Except.error e
          | Except.ok res => Except.ok (mkResponse res)

/-- An HTTP error as raised by the wrapper: fastapi HTTPException with a
status code and a detail string. -/
structure HTTPError where
  status : Nat
  detail : String
  deriving DecidableEq, Repr

/-- Embedding of the call wrapper (server.py lines 135 to 139): any
exception from _call becomes an HTTPException with status 400 and the
exception text as detail. -/
def call (tool : Tool) (kwargs : String → TValue) :
    Except HTTPError Response :=
  match toolCall tool kwargs with
  | Except.ok r => Except.ok r
  | Except.error e => Except.error ⟨400, reprExn e⟩

/-! ### Claim-side reference definitions and concrete fixtures -/

/-- Claim-side degraded response annotation, following the spec sentence:
image and audio outputs degrade to a string field tagged with the
documented encoding format, primitives pass through unchanged. -/
def outputAnnOfSpec (p : ParameterSpec) : OutAnn :=
  match p.type with
  | PyType.image => ⟨PyType.str, some "image/png;base64"⟩
  | PyType.audio => ⟨PyType.str, some "audio/wav;base64"⟩
  | t => ⟨t, none⟩

/-- Claim-side response type descriptor, following the spec sentence: zero
outputs give no response schema, one output gives that single field's
type, two or more give an ordered tuple of each field's type in
output_specs order. -/
def responseDescriptorOfSpec (outputs : List ParameterSpec) : OutputModel :=
  match outputs with
  | [] => OutputModel.noSchema
  | [p] => OutputModel.single (outputAnnOfSpec p)
  | ps => OutputModel.tup (ps.map outputAnnOfSpec)

/-- Claim-side synthesized request field, following the claim sentence for
C7 literally: media inputs become tagged binary-upload fields, other
inputs become form fields of the declared type; a carried description is
attached as documentation as it stands; an optional spec carries its
declared default, a required one carries none. -/
def inputParamOfClaim (p : ParameterSpec) : InputParam :=
  let ann :=
    match p.type with
    | PyType.image => FieldAnn.uploadFile "image;binary" p.description
    | PyType.audio => FieldAnn.uploadFile "audio;binary" p.description
    | t => FieldAnn.form t p.description
  { name := p.name
    ann := ann
    default := if p.optional then some p.default else none }

/-- Claim-side synthesized request field for the amended C7: only a
non-empty description is attached as documentation. -/
def inputParamOfClaimAmended (p : ParameterSpec) : InputParam :=
  let doc :=
    match p.description with
    | some d => if d = "" then none else some d
    | none => none
  let ann :=
    match p.type with
    | PyType.image => FieldAnn.uploadFile "image;binary" doc
    | PyType.audio => FieldAnn.uploadFile "audio;binary" doc
    | t => FieldAnn.form t doc
  { name := p.name
    ann := ann
    default := if p.optional then some p.default else none }

/-- A concrete tool shaped like the Text OCR example of the spec: one image
input and one string output. -/
def textOCRTool : Tool :=
  { name := "Text OCR"
    description := "This tool can recognize all text on the input image."
    inputs := [⟨"image", PyType.image, false, TValue.null, none⟩]
    outputs := [⟨"text", PyType.str, false, TValue.null, none⟩]
    run := fun _ => Except.ok (ToolResult.single (IValue.str "")) }

/-- A concrete tool with a single optional image input, used to probe the
null-value handling of the decoder; its body never fails. -/
def optImgTool : Tool :=
  { name := "opt image"
    description := "optional image input"
    inputs := [⟨"image", PyType.image, true, TValue.null, none⟩]
    outputs := [⟨"text", PyType.str, false, TValue.null, none⟩]
    run := fun _ => Except.ok (ToolResult.single (IValue.str "ok")) }

/-- A concrete audio input spec. -/
def audioParam : ParameterSpec :=
  ⟨"audio", PyType.audio, false, TValue.null, none⟩

/-- A concrete one-sample audio clip. -/
def demoAudio : AudData := ⟨[0], 8000⟩

/-- A concrete one-pixel image. -/
def demoImg : ImgData := ⟨1, 1, [7]⟩

/-- A concrete optional string input spec. -/
def optStrParam : ParameterSpec :=
  ⟨"note", PyType.str, true, TValue.null, none⟩

/-- A concrete image input spec. -/
def imgParam : ParameterSpec :=
  ⟨"img", PyType.image, false, TValue.null, none⟩

/-- A concrete tool with two string outputs whose body returns a
three-element tuple, used to exercise arity handling. -/
def twoOutTool : Tool :=
  { name := "two outputs"
    description := "two declared outputs"
    inputs := []
    outputs := [⟨"a", PyType.str, false, TValue.null, none⟩,
                ⟨"b", PyType.str, false, TValue.null, none⟩]
    run := fun _ => Except.ok (ToolResult.tup
      [IValue.str "x", IValue.str "y", IValue.str "z"]) }

theorem decB64_encB64 : ∀ n < 64, decB64 (encB64 n) = some n := by decide

theorem encB64_ne_eq : ∀ n < 64, encB64 n ≠ '=' := by decide

theorem b64_roundtrip (bs : List Nat) (hb : ∀ b ∈ bs, b < 256) :
    b64DecodeChars (b64EncodeBytes bs) = some bs := by
  induction bs using b64EncodeBytes.induct with
  | case1 => simp [b64EncodeBytes, b64DecodeChars]
  | case2 a =>
      have ha : a < 256 := hb a (by simp)
      have h1 := decB64_encB64 (a / 4) (by omega)
      have h2 := decB64_encB64 (a % 4 * 16) (by omega)
      simp only [b64EncodeBytes, b64DecodeChars, h1, h2]
      simp only [reduceIte, and_self, List.cons.injEq, and_true,
        Option.some.injEq]
      omega
  | case3 a b =>
      have ha : a < 256 := hb a (by simp)
      have hbb : b < 256 := hb b (by simp)
      have h1 := decB64_encB64 (a / 4) (by omega)
      have h2 := decB64_encB64 (a % 4 * 16 + b / 16) (by omega)
      have h3 := decB64_encB64 (b % 16 * 4) (by omega)
      have hne := encB64_ne_eq (b % 16 * 4) (by omega)
      simp only [b64EncodeBytes, b64DecodeChars, h1, h2, h3, if_neg hne]
      simp only [reduceIte, List.cons.injEq, and_true,
        Option.some.injEq]
      omega
  | case4 a b c rest ih =>
      have ha : a < 256 := hb a (by simp)
      have hbb : b < 256 := hb b (by simp)
      have hc : c < 256 := hb c (by simp)
      have hrest : ∀ x ∈ rest, x < 256 := by
        intro x hx
        exact hb x (by simp [hx])
      have h1 := decB64_encB64 (a / 4) (by omega)
      have h2 := decB64_encB64 (a % 4 * 16 + b / 16) (by omega)
      have h3 := decB64_encB64 (b % 16 * 4 + c / 64) (by omega)
      have h4 := decB64_encB64 (c % 64) (by omega)
      have hne3 := encB64_ne_eq (b % 16 * 4 + c / 64) (by omega)
      have hne4 := encB64_ne_eq (c % 64) (by omega)
      simp only [b64EncodeBytes, b64DecodeChars, h1, h2, h3, h4, if_neg hne3,
        if_neg hne4, ih hrest]
      simp only [List.cons.injEq, and_true, Option.some.injEq]
      omega

theorem b64_roundtrip_str (bs : List Nat) (hb : ∀ b ∈ bs, b < 256) :
    b64decode (b64encode bs) = some bs := by
  simpa [b64decode, b64encode] using b64_roundtrip bs hb

theorem fromBytes4_toBytes4 (n : Nat) (h : n < 2 ^ 32) :
    fromBytes4 (n % 256) (n / 256 % 256) (n / 65536 % 256)
      (n / 16777216 % 256) = n := by
  simp only [fromBytes4]
  omega

theorem png_roundtrip (img : ImgData) (h : img.wf) :
    pngDecode (pngEncode img) = some img := by
  obtain ⟨hlen, hpix, hw, hh⟩ := h
  simp only [pngEncode, toBytes4, List.cons_append, List.nil_append,
    pngDecode]
  rw [fromBytes4_toBytes4 img.width hw, fromBytes4_toBytes4 img.height hh]
  have hc : img.pixels.length = img.width * img.height ∧
      img.pixels.all (fun b => b < 256) = true := by
    refine ⟨hlen, ?_⟩
    simp only [List.all_eq_true, decide_eq_true_eq]
    exact hpix
  rw [if_pos hc]

theorem pngEncode_bytes_lt (img : ImgData) (h : img.wf) :
    ∀ b ∈ pngEncode img, b < 256 := by
  obtain ⟨_, hpix, _, _⟩ := h
  intro b hbmem
  simp only [pngEncode, List.mem_append] at hbmem
  rcases hbmem with hmem | hmem
  · simp only [toBytes4, List.mem_append, List.mem_cons, List.not_mem_nil,
      or_false] at hmem
    rcases hmem with (h | h | h | h) | (h | h | h | h) <;> subst h <;> omega
  · exact hpix b hmem

theorem sample_roundtrip (s : Int) (h : -32768 ≤ s ∧ s < 32768) :
    sampleFromBytes ((s % 65536).toNat % 256) ((s % 65536).toNat / 256)
      = s := by
  simp only [sampleFromBytes]
  omega

theorem samples_roundtrip (ss : List Int)
    (h : ∀ s ∈ ss, -32768 ≤ s ∧ s < 32768) :
    samplesDecode (samplesEncode ss) = some ss := by
  induction ss with
  | nil => simp [samplesEncode, samplesDecode]
  | cons s rest ih =>
      have hs := h s (by simp)
      have hrest : ∀ x ∈ rest, -32768 ≤ x ∧ x < 32768 := by
        intro x hx
        exact h x (by simp [hx])
      have henc : samplesEncode (s :: rest)
          = (s % 65536).toNat % 256 :: (s % 65536).toNat / 256 ::
            samplesEncode rest := by
        simp [samplesEncode, sampleToBytes]
      rw [henc]
      simp only [samplesDecode, ih hrest]
      rw [sample_roundtrip s hs]

theorem wav_roundtrip (a : AudData) (h : a.wf) :
    wavDecode (wavEncode a) = some a := by
  obtain ⟨hs, hr⟩ := h
  simp only [wavEncode, toBytes4, List.cons_append, List.nil_append,
    wavDecode]
  rw [samples_roundtrip a.samples hs]
  have : a.sampling_rate % 2 ^ 32 = a.sampling_rate := Nat.mod_eq_of_lt hr
  rw [this, fromBytes4_toBytes4 a.sampling_rate hr]

theorem sampleToBytes_lt (s : Int) : ∀ b ∈ sampleToBytes s, b < 256 := by
  intro b hbmem
  simp only [sampleToBytes, List.mem_cons, List.not_mem_nil, or_false]
    at hbmem
  rcases hbmem with h | h <;> subst h <;> omega

theorem wavEncode_bytes_lt (a : AudData) : ∀ b ∈ wavEncode a, b < 256 := by
  intro b hbmem
  simp only [wavEncode, toBytes4, samplesEncode, List.mem_append,
    List.mem_cons, List.not_mem_nil, or_false, List.mem_flatMap] at hbmem
  rcases hbmem with (h | h | h | h) | ⟨s, _, hmem⟩
  · omega
  · omega
  · omega
  · omega
  · exact sampleToBytes_lt s b hmem

theorem encodeOuts_ok_spec (outs : List IValue) (specs : List ParameterSpec)
    (res : List IValue) (h : encodeOuts outs specs = Except.ok res) :
    res.length = min outs.length specs.length ∧
    ∀ i, i < res.length →
      ∃ v p e, outs.get? i = some v ∧ specs.get? i = some p ∧
        encodeOut v p = Except.ok e ∧ res.get? i = some e := by
  induction outs generalizing specs res with
  | nil =>
      simp only [encodeOuts] at h
      cases h
      simp
  | cons out outs ih =>
      cases specs with
      | nil =>
          simp only [encodeOuts] at h
          cases h
          simp
      | cons p specs =>
          simp only [encodeOuts] at h
          cases henc : encodeOut out p with
          | error e => rw [henc] at h; cases h
          | ok v =>
              rw [henc] at h
              cases hrest : encodeOuts outs specs with
              | error e => rw [hrest] at h; cases h
              | ok vs =>
                  rw [hrest] at h
                  cases h
                  obtain ⟨hlen, hpos⟩ := ih specs vs hrest
                  refine ⟨by simp only [List.length_cons, hlen]; omega, ?_⟩
                  intro i hi
                  cases i with
                  | zero => exact ⟨out, p, v, rfl, rfl, henc, rfl⟩
                  | succ j =>
                      simp only [List.length_cons] at hi
                      obtain ⟨v2, p2, e2, h1, h2, h3, h4⟩ :=
                        hpos j (by omega)
                      exact ⟨v2, p2, e2, h1, h2, h3, h4⟩

theorem decodeArgs_ok_all (inputs : List ParameterSpec)
    (kwargs : String → TValue) (args : List (String × IValue))
    (h : decodeArgs inputs kwargs = Except.ok args) :
    ∀ p ∈ inputs, ∃ r, decodeArg p (kwargs p.name) = Except.ok r := by
  induction inputs generalizing args with
  | nil => simp
  | cons q rest ih =>
      intro p hp
      simp only [decodeArgs] at h
      cases hq : decodeArg q (kwargs q.name) with
      | error e => rw [hq] at h; cases h
      | ok r =>
          rw [hq] at h
          cases hrest : decodeArgs rest kwargs with
          | error e => rw [hrest] at h; cases h
          | ok rs =>
              rcases List.mem_cons.mp hp with heq | hmem
              · subst heq
                exact ⟨r, hq⟩
              · exact ih rs hrest p hmem

theorem decodeArgs_mem_name (inputs : List ParameterSpec)
    (kwargs : String → TValue) (args : List (String × IValue))
    (h : decodeArgs inputs kwargs = Except.ok args)
    (nm : String) (v : IValue) (hmem : (nm, v) ∈ args) :
    ∃ q ∈ inputs, q.name = nm ∧
      decodeArg q (kwargs q.name) = Except.ok (some v) := by
  induction inputs generalizing args with
  | nil =>
      simp only [decodeArgs] at h
      cases h
      cases hmem
  | cons q rest ih =>
      simp only [decodeArgs] at h
      cases hq : decodeArg q (kwargs q.name) with
      | error e => rw [hq] at h; cases h
      | ok r =>
          rw [hq] at h
          cases hrest : decodeArgs rest kwargs with
          | error e => rw [hrest] at h; cases h
          | ok rs =>
              rw [hrest] at h
              cases h
              cases r with
              | none =>
                  obtain ⟨q2, hq2mem, hq2⟩ := ih rs hrest hmem
                  exact ⟨q2, List.mem_cons_of_mem q hq2mem, hq2⟩
              | some w =>
                  rcases List.mem_cons.mp hmem with heq | hmem2
                  · cases heq
                    exact ⟨q, List.mem_cons_self q rest, rfl, hq⟩
                  · obtain ⟨q2, hq2mem, hq2⟩ := ih rs hrest hmem2
                    exact ⟨q2, List.mem_cons_of_mem q hq2mem, hq2⟩

theorem decodeArgs_error_of_mem (inputs : List ParameterSpec)
    (kwargs : String → TValue) (p : ParameterSpec) (hp : p ∈ inputs)
    (e : Exn) (herr : decodeArg p (kwargs p.name) = Except.error e) :
    ∃ e2, decodeArgs inputs kwargs = Except.error e2 := by
  cases hall : decodeArgs inputs kwargs with
  | error e2 => exact ⟨e2, rfl⟩
  | ok args =>
      obtain ⟨r, hr⟩ := decodeArgs_ok_all inputs kwargs args hall p hp
      rw [herr] at hr
      cases hr

/-- C2: for every request, the call wrapper either passes the successful
encoded response through unchanged, or catches the exception raised during
decoding, invocation or encoding and surfaces it as an HTTP 400 error
whose detail is the exception text; no raw exception propagates and no
partial result is returned. -/
theorem claim2_error_handling (tool : Tool) (kwargs : String → TValue) :
    (∃ r, toolCall tool kwargs = Except.ok r ∧
      call tool kwargs = Except.ok r) ∨
    (∃ e, toolCall tool kwargs = Except.error e ∧
      call tool kwargs =
        Except.error { status := 400, detail := reprExn e }) := by
  cases h : toolCall tool kwargs with
  | ok r => exact Or.inl ⟨r, rfl, by simp [call, h]⟩
  | error e => exact Or.inr ⟨e, rfl, by simp [call, h]⟩

/-- C4: the binder registers exactly one route per tool, a POST route whose
path is a slash followed by the tool name with every space turned into an
underscore, whose operation id is that normalized name and whose summary
is the tool description; in particular the Text OCR fixture is bound at
the path /Text_OCR. -/
theorem claim4_route_binding (tool : Tool) :
    (∃ r, add_tool_routes tool = [r] ∧
      r.path.data = '/' ::
        tool.name.data.map (fun c => if c = ' ' then '_' else c) ∧
      r.method = "POST" ∧
      r.operationId.data =
        tool.name.data.map (fun c => if c = ' ' then '_' else c) ∧
      r.summary = tool.description) ∧
    (add_tool_routes textOCRTool).map Route.path = ["/Text_OCR"] := by
  constructor
  · refine ⟨_, rfl, ?_, rfl, rfl, rfl⟩
    show ("/" ++ normalizeName tool.name).data = _
    rw [String.data_append]
    rfl
  · rfl

/-- C5 concerns the audio format inference of the handler. The code passes
the component after the last dot of the filename to the loader and falls
back to auto-detection only when that component is empty; a filename with
no dot at all yields the whole filename as the format rather than the
fallback, so valid audio bytes decode under a wav-named upload but the
same bytes fail under an extensionless name. -/
theorem claim5_format_inference :
    fileFormat "sound" = some "sound" ∧
    fileFormat "a.b.wav" = some "wav" ∧
    fileFormat "trailing." = none ∧
    fileFormat "" = none ∧
    decodeArg audioParam (TValue.file "sound.wav" (wavEncode demoAudio))
      = Except.ok (some (IValue.audio demoAudio)) ∧
    decodeArg audioParam (TValue.file "sound" (wavEncode demoAudio))
      = Except.error ⟨"RuntimeError: unsupported audio format"⟩ := by
  refine ⟨rfl, rfl, rfl, rfl, rfl, rfl⟩

/-- C6: the synthesized response type descriptor is exactly the spec-side
descriptor: no schema for zero declared outputs, the single degraded field
type for one, and an ordered tuple of the degraded field types in
output_specs order for two or more. -/
theorem claim6_output_model (tool : Tool) :
    create_output_model tool = responseDescriptorOfSpec tool.outputs := by
  have hann : ∀ p, outputAnn p = outputAnnOfSpec p := by
    intro p
    cases hp : p.type <;> simp [outputAnn, outputAnnOfSpec, hp]
  cases h : tool.outputs with
  | nil => simp [create_output_model, responseDescriptorOfSpec, h]
  | cons p rest =>
      cases rest with
      | nil =>
          simp [create_output_model, responseDescriptorOfSpec, h, hann]
      | cons q rest2 =>
          simp [create_output_model, responseDescriptorOfSpec, h, hann]

/-- C1: when decoding, invocation and encoding all succeed and the tool
returned at least as many values as the declared outputs, the response is
wrapped purely by the number N of declared outputs: zero gives the null
response, one gives the bare encoded value, and N at least two gives an
ordered tuple of length N whose positions carry the encodings of the
corresponding returned values in declared order. -/
theorem claim1_response_arity (tool : Tool) (kwargs : String → TValue)
    (args : List (String × IValue)) (r : ToolResult) (res : List IValue)
    (hdec : decodeArgs tool.inputs kwargs = Except.ok args)
    (hrun : tool.run args = Except.ok r)
    (hlen : tool.outputs.length ≤ (normalizeOuts r).length)
    (henc : encodeOuts (normalizeOuts r) tool.outputs = Except.ok res) :
    res.length = tool.outputs.length ∧
    (tool.outputs.length = 0 →
      call tool kwargs = Except.ok Response.null) ∧
    (tool.outputs.length = 1 →
      ∃ v, res = [v] ∧ call tool kwargs = Except.ok (Response.single v)) ∧
    (2 ≤ tool.outputs.length →
      call tool kwargs = Except.ok (Response.tup res) ∧
      ∀ i, i < tool.outputs.length →
        ∃ v p e, (normalizeOuts r).get? i = some v ∧
          tool.outputs.get? i = some p ∧
          encodeOut v p = Except.ok e ∧ res.get? i = some e) := by
  have hcall : call tool kwargs = Except.ok (mkResponse res) := by
    simp [call, toolCall, hdec, hrun, henc]
  obtain ⟨hreslen, hpos⟩ := encodeOuts_ok_spec _ _ _ henc
  have hlen3 : res.length = tool.outputs.length := by omega
  refine ⟨hlen3, ?_, ?_, ?_⟩
  · intro h0
    have hnil : res = [] := List.eq_nil_of_length_eq_zero (by omega)
    rw [hnil] at hcall
    simpa [mkResponse] using hcall
  · intro h1
    obtain ⟨v, hv⟩ := List.length_eq_one.mp (by omega : res.length = 1)
    refine ⟨v, hv, ?_⟩
    rw [hv] at hcall
    simpa [mkResponse] using hcall
  · intro h2
    constructor
    · cases res with
      | nil => simp at hlen3; omega
      | cons v1 rest =>
          cases rest with
          | nil => simp at hlen3; omega
          | cons v2 rest2 => simpa [mkResponse] using hcall
    · intro i hi
      exact hpos i (by omega)

theorem claim1_witness :
    call twoOutTool (fun _ => TValue.null)
      = Except.ok (Response.tup [IValue.str "x", IValue.str "y"]) :=
  ((claim1_response_arity twoOutTool (fun _ => TValue.null) []
    (ToolResult.tup [IValue.str "x", IValue.str "y", IValue.str "z"])
    [IValue.str "x", IValue.str "y"] rfl rfl (by decide) rfl).2.2.2
    (by decide)).1

/-- C10: output encoding pairs the returned values with the declared output
specs strictly positionally and truncates to the shorter of the two lists:
surplus returned values are dropped, declared outputs beyond the returned
values produce no response element, and each kept position carries the
encoding of the corresponding pair. -/
theorem claim10_truncation (outs : List IValue)
    (specs : List ParameterSpec) (res : List IValue)
    (h : encodeOuts outs specs = Except.ok res) :
    res.length = min outs.length specs.length ∧
    (specs.length < outs.length → res.length = specs.length) ∧
    (outs.length < specs.length → res.length = outs.length) ∧
    ∀ i, i < res.length →
      ∃ v p e, outs.get? i = some v ∧ specs.get? i = some p ∧
        encodeOut v p = Except.ok e ∧ res.get? i = some e := by
  obtain ⟨h1, h2⟩ := encodeOuts_ok_spec outs specs res h
  exact ⟨h1, fun hlt => by omega, fun hlt => by omega, h2⟩

theorem claim10_witness :
    [IValue.str "x", IValue.str "y"].length =
      min [IValue.str "x", IValue.str "y", IValue.str "z"].length
        twoOutTool.outputs.length :=
  (claim10_truncation [IValue.str "x", IValue.str "y", IValue.str "z"]
    twoOutTool.outputs [IValue.str "x", IValue.str "y"] rfl).1

/-- C9: the null skip of the decoder is unreachable for media fields: a
media-typed input whose incoming value is null is not omitted, the media
branch fails on the null value, and the request yields a 400 error rather
than an invocation with that argument omitted. -/
theorem claim9_media_null (tool : Tool) (kwargs : String → TValue)
    (p : ParameterSpec) (hp : p ∈ tool.inputs)
    (hmedia : p.type = PyType.image ∨ p.type = PyType.audio)
    (hnull : kwargs p.name = TValue.null) :
    (∃ e, decodeArg p (kwargs p.name) = Except.error e) ∧
    (∃ d, call tool kwargs
      = Except.error { status := 400, detail := d }) := by
  have herr : ∃ e, decodeArg p (kwargs p.name) = Except.error e := by
    rw [hnull]
    rcases hmedia with h | h
    · exact ⟨⟨"AttributeError: file attribute on non-upload"⟩,
        by simp [decodeArg, h]⟩
    · exact ⟨⟨"AttributeError: filename on non-upload"⟩,
        by simp [decodeArg, h]⟩
  obtain ⟨e, he⟩ := herr
  obtain ⟨e2, he2⟩ := decodeArgs_error_of_mem tool.inputs kwargs p hp e he
  refine ⟨⟨e, he⟩, ⟨reprExn e2, ?_⟩⟩
  simp [call, toolCall, he2]

theorem claim9_witness :
    (∃ e, decodeArg ⟨"image", PyType.image, true, TValue.null, none⟩
        TValue.null = Except.error e) ∧
    (∃ d, call optImgTool (fun _ => TValue.null)
      = Except.error { status := 400, detail := d }) :=
  claim9_media_null optImgTool (fun _ => TValue.null)
    ⟨"image", PyType.image, true, TValue.null, none⟩
    (by decide) (Or.inl rfl) rfl

/-- C3 counterexample: the claim fails as stated once the optional field is
media-typed. For a tool whose single input is an optional image field, a
null value is not omitted from the arguments: the decoder raises and the
request yields a 400 error, so no invocation with the argument omitted
takes place. -/
theorem claim3_cex :
    decodeArgs optImgTool.inputs (fun _ => TValue.null)
      = Except.error ⟨"AttributeError: file attribute on non-upload"⟩ ∧
    call optImgTool (fun _ => TValue.null)
      = Except.error ⟨400, "AttributeError: file attribute on non-upload"⟩ :=
  ⟨rfl, rfl⟩

/-- C3 amended: for every optional input field of non-media type whose
transport value is null, the decoder omits that name from the
keyword-argument mapping passed to the tool entirely, and no default
value is substituted by this layer. -/
theorem claim3_null_skip (inputs : List ParameterSpec)
    (kwargs : String → TValue) (p : ParameterSpec)
    (args : List (String × IValue)) (hp : p ∈ inputs)
    (hopt : p.optional = true)
    (hprim : p.type ≠ PyType.image ∧ p.type ≠ PyType.audio)
    (hnull : kwargs p.name = TValue.null)
    (hok : decodeArgs inputs kwargs = Except.ok args) :
    p.name ∉ args.map Prod.fst := by
  intro hmem
  obtain ⟨⟨nm, v⟩, hin, heq⟩ := List.mem_map.mp hmem
  have heq2 : nm = p.name := heq
  subst heq2
  obtain ⟨q, hqmem, hqname, hq⟩ :=
    decodeArgs_mem_name inputs kwargs args hok p.name v hin
  rw [hqname, hnull] at hq
  cases hqt : q.type <;> simp [decodeArg, hqt] at hq

theorem claim3_witness :
    decodeArgs [optStrParam] (fun _ => TValue.null) = Except.ok [] ∧
    "note" ∉ (([] : List (String × IValue)).map Prod.fst) :=
  ⟨rfl, claim3_null_skip [optStrParam] (fun _ => TValue.null) optStrParam
    [] (by decide) rfl ⟨by decide, by decide⟩ rfl rfl⟩

/-- C7 counterexample: an input spec carrying the empty string as its
description. The synthesizer attaches no documentation, because the
truthiness test of the source treats an empty description like a missing
one, so the claim as stated fails for this spec. -/
theorem claim7_cex :
    create_input_params
      { name := "t"
        description := "d"
        inputs := [⟨"x", PyType.str, false, TValue.null, some ""⟩]
        outputs := []
        run := fun _ => Except.ok (ToolResult.single IValue.pynone) }
      ≠ [inputParamOfClaim ⟨"x", PyType.str, false, TValue.null, some ""⟩]
    := by decide

/-- C7 amended: for every input spec, the synthesized request field is a
tagged binary-upload field for media types and a form field of the
declared type otherwise; a carried non-empty description is attached as
documentation (an empty one is treated like a missing one); an optional
spec carries its declared default and a required one carries none. -/
theorem claim7_input_params (tool : Tool) :
    create_input_params tool
      = tool.inputs.map inputParamOfClaimAmended := by
  simp only [create_input_params]
  apply List.map_congr_left
  intro p _
  cases hd : p.description with
  | none =>
      cases ht : p.type <;>
        simp [inputParamOfClaimAmended, descTruthy, hd, ht]
  | some d =>
      by_cases hde : d = "" <;> cases ht : p.type <;>
        simp [inputParamOfClaimAmended, descTruthy, hd, ht, hde]

/-- C8: encoding a well-formed image output (PNG serialization then base64)
and feeding the base64-decoded bytes back through the input-side decoder
recovers the pixel-identical image; encoding a well-formed audio output
(WAV serialization then base64) and decoding it back preserves the sample
count and the sampling rate. -/
theorem claim8_roundtrip (img : ImgData) (a : AudData)
    (p q : ParameterSpec) (hp : p.type = PyType.image)
    (hq : q.type = PyType.audio) (hi : img.wf) (ha : a.wf) :
    (∃ s bytes,
      encodeOut (IValue.image img) p = Except.ok (IValue.str s) ∧
      b64decode s = some bytes ∧
      decodeArg p (TValue.file "out.png" bytes)
        = Except.ok (some (IValue.image img))) ∧
    (∃ s bytes a2,
      encodeOut (IValue.audio a) q = Except.ok (IValue.str s) ∧
      b64decode s = some bytes ∧
      decodeArg q (TValue.file "out.wav" bytes)
        = Except.ok (some (IValue.audio a2)) ∧
      a2.samples.length = a.samples.length ∧
      a2.sampling_rate = a.sampling_rate) := by
  constructor
  · refine ⟨b64encode (pngEncode img), pngEncode img, ?_, ?_, ?_⟩
    · simp [encodeOut, hp]
    · exact b64_roundtrip_str _ (pngEncode_bytes_lt img hi)
    · simp [decodeArg, hp, png_roundtrip img hi]
  · refine ⟨b64encode (wavEncode a), wavEncode a, a, ?_, ?_, ?_, rfl, rfl⟩
    · simp [encodeOut, hq]
    · exact b64_roundtrip_str _ (wavEncode_bytes_lt a)
    · have hfmt : fileFormat "out.wav" = some "wav" := rfl
      simp [decodeArg, hq, hfmt, torchaudioLoad, wav_roundtrip a ha]

theorem claim8_witness :
    (∃ s bytes,
      encodeOut (IValue.image demoImg) imgParam
        = Except.ok (IValue.str s) ∧
      b64decode s = some bytes ∧
      decodeArg imgParam (TValue.file "out.png" bytes)
        = Except.ok (some (IValue.image demoImg))) ∧
    (∃ s bytes a2,
      encodeOut (IValue.audio demoAudio) audioParam
        = Except.ok (IValue.str s) ∧
      b64decode s = some bytes ∧
      decodeArg audioParam (TValue.file "out.wav" bytes)
        = Except.ok (some (IValue.audio a2)) ∧
      a2.samples.length = demoAudio.samples.length ∧
      a2.sampling_rate = demoAudio.sampling_rate) :=
  claim8_roundtrip demoImg demoAudio imgParam audioParam rfl rfl
    (by unfold ImgData.wf; decide) (by unfold AudData.wf; decide)

end AgentLego
